import Mathlib

/-!
Verification development for the ICONBTN UI asset generator.

The repository drives a natural-language → game-UI-asset pipeline:
droid definition files declare the intent-resolution rules (boon droid,
CTA droid, card generator, gacha droid) and a React chat component
(`frontend/src/components/Chat.jsx`) is the request-facing UI.  This file
gives a shallow embedding of those rules and of the chat component's state
handling, and proves the specified properties about them.
-/

namespace IconBtn

/-! ## Word-level tokenizer

Both droids (`boon-droid`, `cta-droid`) match trigger keywords against the
words of the request, case-insensitively.  We tokenize by splitting on
non-alphabetic characters and lower-casing. -/

/-- Split a character list into lower-cased alphabetic words. -/
def splitWords : List Char → List Char → List String
  | [], acc => if acc.isEmpty then [] else [String.mk acc.reverse]
  | c :: cs, acc =>
    if c.isAlpha then splitWords cs (c.toLower :: acc)
    else if acc.isEmpty then splitWords cs []
    else String.mk acc.reverse :: splitWords cs []

/-- The lower-cased words of a request. -/
def tokens (s : String) : List String :=
  splitWords s.data []

/-- Unigrams plus adjacent bigrams (needed for the two-word trigger
"outer dark" in the boon registry). -/
def phrases (s : String) : List String :=
  let ts := tokens s
  ts ++ (ts.zip ts.tail).map (fun p => p.1 ++ " " ++ p.2)

/-! ## Boon droid (`src/unnamed/part_002`)

The boon droid resolves a request to a main boon (force type) and a
modifier direction, per its declared registry tables and the Step 1-3
interpretation logic. -/

inductive Boon where
  | fire | ice | celestial | earth | outerDark | storm
deriving DecidableEq

inductive Modifier where
  | down | up
deriving DecidableEq

/-- Common triggers per main boon, from the Boon Registry table. -/
def boonTriggers : Boon → List String
  | .fire => ["fire", "flame", "burn", "heat", "inferno"]
  | .ice => ["ice", "frost", "cold", "freeze", "frozen"]
  | .celestial => ["celestial", "holy", "divine", "light", "sun", "moon", "star"]
  | .earth => ["earth", "ground", "rock", "stone", "mountain"]
  | .outerDark => ["outer dark", "void", "dark", "shadow", "abyss", "eldritch"]
  | .storm => ["storm", "lightning", "thunder", "electric", "shock"]

/-- Decrease indicators: union of the `down` sub-icon trigger list and the
Step 2 decrease-indicator list (which adds "resistance" and "defense" as
implicit negations). -/
def decreaseIndicators : List String :=
  ["decrease", "decreased", "reduce", "reduced", "lower", "lowered", "down",
   "less", "weaken", "weakened", "minus", "debuff", "penalty",
   "resistance", "defense"]

/-- Increase indicators: union of the `up` sub-icon trigger list and the
Step 2 increase-indicator list (which adds "damage", "attack", "power"). -/
def increaseIndicators : List String :=
  ["increase", "increased", "boost", "boosted", "raise", "raised", "up",
   "more", "strengthen", "strengthened", "plus", "buff", "bonus",
   "damage", "attack", "power"]

def boonOrder : List Boon :=
  [.fire, .ice, .celestial, .earth, .outerDark, .storm]

/-- Step 1: identify the main boon by its trigger keywords. -/
def matchBoon (s : String) : Option Boon :=
  boonOrder.find? (fun b => (boonTriggers b).any (fun t => (phrases s).contains t))

/-- Step 2: identify the modifier direction.  Decrease indicators are
checked first so that e.g. "fire damage decreased" resolves to `down`
even though "damage" alone is an increase indicator (matching the
Step 3 context-interpretation examples). -/
def matchModifier (s : String) : Option Modifier :=
  if decreaseIndicators.any (fun k => (tokens s).contains k) then some .down
  else if increaseIndicators.any (fun k => (tokens s).contains k) then some .up
  else none

/-- Outcome of the boon droid: either a fully resolved boon request, or a
clarification request (per its Error Handling section, an ambiguous
request makes the droid ask which boon type / which direction). -/
inductive BoonOutcome where
  | resolved (boon : Boon) (modifier : Modifier)
  | clarify (missingBoon : Bool) (missingModifier : Bool)
deriving DecidableEq

/-- The boon droid's request interpretation: Steps 1-2, falling back to a
clarification question when either part is missing. -/
def boonDroid (s : String) : BoonOutcome :=
  match matchBoon s, matchModifier s with
  | some b, some m => .resolved b m
  | ob, om => .clarify ob.isNone om.isNone

/-! ## CTA droid (`src/unnamed/part_001`)

Button-type determination with the declared default-to-primary rule. -/

inductive ButtonType where
  | primary | secondary
deriving DecidableEq

/-- Primary CTA indicator keywords. -/
def primaryKeywords : List String :=
  ["primary", "main", "blue", "action", "confirm", "submit", "bright",
   "start", "play", "continue"]

/-- Secondary CTA indicator keywords (including the dismissive text
words). -/
def secondaryKeywords : List String :=
  ["secondary", "cancel", "gray", "grey", "dark", "back", "dismiss",
   "simple", "exit", "close", "skip"]

/-- Determining the button type: secondary indicators select secondary,
primary indicators select primary, and an ambiguous request defaults to
primary ("When ambiguous: Default to primary CTA"). -/
def determineButtonType (s : String) : ButtonType :=
  if secondaryKeywords.any (fun k => (tokens s).contains k) then .secondary
  else if primaryKeywords.any (fun k => (tokens s).contains k) then .primary
  else .primary

/-! ## CTA button text extraction (`src/unnamed/part_001`)

The CTA droid looks for button text in a fixed list of patterns: quoted
text, a "says"/"saying" clause, a "labeled"/"labelled" clause, a
"with text" clause, a colon-delimited suffix — and always uppercases the
extracted text. -/

def doubleQuoteChar : Char := Char.ofNat 34

def singleQuoteChar : Char := Char.ofNat 39

/-- Characters up to (not including) the next occurrence of `q`; `none`
if `q` never occurs. -/
def takeUntilChar (q : Char) : List Char → Option (List Char)
  | [] => none
  | c :: cs => if c = q then some [] else (takeUntilChar q cs).map (c :: ·)

/-- The text between the first pair of `q` delimiters. -/
def betweenChar (q : Char) : List Char → Option (List Char)
  | [] => none
  | c :: cs => if c = q then takeUntilChar q cs else betweenChar q cs

/-- Explicitly quoted text, double quotes tried before single quotes. -/
def quotedText (s : String) : Option String :=
  match betweenChar doubleQuoteChar s.data with
  | some cs => some (String.mk cs)
  | none =>
    match betweenChar singleQuoteChar s.data with
    | some cs => some (String.mk cs)
    | none => none

/-- The words following the first occurrence of the word `kw`. -/
def wordsAfter (kw : String) : List String → Option (List String)
  | [] => none
  | w :: ws => if w = kw then some ws else wordsAfter kw ws

def joinWords : List String → String
  | [] => ""
  | [w] => w
  | w :: ws => w ++ " " ++ joinWords ws

/-- The phrase after the first keyword of `kws` occurring in `s`; `none`
when no keyword occurs or nothing follows it. -/
def afterKeyword (kws : List String) (s : String) : Option String :=
  (kws.filterMap (fun kw => (wordsAfter kw (tokens s)).bind
    (fun ws => if ws.isEmpty then none else some (joinWords ws)))).head?

def charsAfterColon : List Char → Option (List Char)
  | [] => none
  | c :: cs => if c = ':' then some cs else charsAfterColon cs

/-- Colon-delimited suffix of the request, surrounding whitespace
stripped. -/
def afterColon (s : String) : Option String :=
  match charsAfterColon s.data with
  | none => none
  | some cs =>
    let t := ((cs.dropWhile (fun c => c.isWhitespace)).reverse.dropWhile
      (fun c => c.isWhitespace)).reverse
    if t.isEmpty then none else some (String.mk t)

/-- Action-oriented / dismissive words that can stand for the button text
on their own (a bare keyword hit). -/
def bareTextKeywords : List String :=
  ["start", "play", "confirm", "continue", "stop",
   "cancel", "back", "exit", "close", "no", "skip"]

def bareKeywordHit (s : String) : Option String :=
  (tokens s).find? (fun w => bareTextKeywords.contains w)

def uppercaseStr (s : String) : String :=
  String.mk (s.data.map Char.toUpper)

/-- Extracting the button text: the listed patterns are tried in order —
quoted text, "says"/"saying", "labeled"/"labelled", "with text", colon
suffix — with a bare action keyword as last resort; the extracted text is
always uppercased. -/
def extractButtonText (s : String) : Option String :=
  (match quotedText s with
   | some t => some t
   | none =>
     match afterKeyword ["says", "saying"] s with
     | some t => some t
     | none =>
       match afterKeyword ["labeled", "labelled"] s with
       | some t => some t
       | none =>
         match afterKeyword ["text"] s with
         | some t => some t
         | none =>
           match afterColon s with
           | some t => some t
           | none => bareKeywordHit s).map uppercaseStr

/-! ## Asset registry lookup (`card_generator.md`, Parameter Extraction
Rules)

The card generator matches a requested character name against the files
of the `primals/` folder: "frost queen" matches `frostqueen.jpeg`.  The
matching script itself (`scripts/generate_card.py`) is not part of the
sources, so the two-phase lookup is modelled from the spec. -/

/-- Normalized canonical key: lower-cased with spaces and punctuation
removed. -/
def normalizeKey (s : String) : String :=
  String.mk (s.data.filterMap (fun c =>
    if c.isAlphanum then some c.toLower else none))

/-- One Levenshtein DP row step (`prev` is the previous row; `left` the
value just computed to the left). -/
def levGo (x : Char) : List Char → List Nat → Nat → List Nat
  | y :: ys, d :: tail, left =>
    (match tail with
     | up :: _ =>
       let cur := min (left + 1) (min (up + 1) (d + (if x = y then 0 else 1)))
       cur :: levGo x ys tail cur
     | [] => [])
  | _, _, _ => []

/-- The next Levenshtein DP row for source character `x`. -/
def levNextRow (x : Char) (ys : List Char) (prev : List Nat) : List Nat :=
  match prev with
  | [] => []
  | p :: _ => (p + 1) :: levGo x ys prev (p + 1)

/-- Levenshtein edit distance between two strings, by the classic
row-by-row dynamic program. -/
def levenshtein (a b : String) : Nat :=
  let ys := b.data
  (a.data.foldl (fun row x => levNextRow x ys row)
    (List.range (ys.length + 1))).getLastD 0

/-- Modelled from the spec: normalized similarity score in percent.
`scripts/generate_card.py` (absent from the sources) is specified to use
"normalized (case/space/punctuation-insensitive) similarity scoring". -/
def similarity (a b : String) : Nat :=
  let m := max a.length b.length
  if m = 0 then 100 else (100 * (m - levenshtein a b)) / m

/-- Modelled from the spec: the fixed minimum-confidence threshold for
fuzzy suggestions, in percent. -/
def similarityThreshold : Nat := 60

inductive LookupResult where
  | found (entry : String)
  | notFound (key : String) (suggestions : List String)
deriving DecidableEq

/-- Modelled from the spec: two-phase registry lookup — exact
normalized-key match first, and on a miss a NotFound result whose
suggestions are the registry entries scoring above the fixed
threshold. -/
def resolveAsset (registry : List String) (key : String) : LookupResult :=
  match registry.find? (fun e => normalizeKey e == normalizeKey key) with
  | some e => .found e
  | none =>
    .notFound key (registry.filter (fun e =>
      similarityThreshold < similarity (normalizeKey key) (normalizeKey e)))

/-! ## Spec cache (`gacha-droid.md`)

The gacha droid keeps one cached version of the external Figma design
spec per node id (`gacha_figma_specs.json`), with a "Last synced" stamp;
before any sync it reports "Last synced: Never" and uses declared
defaults.  The cache implementation (`generate_gacha.py`) is absent from
the sources, so it is modelled from the spec: one mutable slot per node
id, last-write-wins, stamped with the current time. -/

/-- The numeric attribute bundle of a design node (rotations in
millidegrees, as in "Primal rotation: 356.228deg"). -/
structure SpecAttrs where
  primalRotMilli : Int
  sorceryRotMilli : Int
  offsetX : Int
  offsetY : Int
deriving DecidableEq

structure ExternalSpec where
  attrs : SpecAttrs
  syncedAt : Nat
  synced : Bool
deriving DecidableEq

/-- Modelled from the spec: the declared default spec, annotated
unsynced, returned while the node was never synced. -/
def defaultSpec : ExternalSpec :=
  { attrs := { primalRotMilli := 0, sorceryRotMilli := 0,
               offsetX := 0, offsetY := 0 },
    syncedAt := 0, synced := false }

/-- The cache: a flat node-id → spec mapping plus a logical clock that
stands for the current time (strictly increasing across writes). -/
structure SpecCache where
  entries : List (String × ExternalSpec)
  clock : Nat
deriving DecidableEq

def SpecCache.empty : SpecCache := ⟨[], 0⟩

/-- Modelled from the spec: `get(nodeId)` returns the most recent spec
for the node, or the declared default marked unsynced when never set. -/
def SpecCache.get (c : SpecCache) (id : String) : ExternalSpec :=
  match c.entries.lookup id with
  | some s => s
  | none => defaultSpec

/-- Modelled from the spec: `put(nodeId, attrs)` overwrites the node's
single slot unconditionally, stamping the current time; no history is
kept. -/
def SpecCache.put (c : SpecCache) (id : String) (a : SpecAttrs) : SpecCache :=
  { entries := (id, { attrs := a, syncedAt := c.clock + 1, synced := true })
      :: c.entries.filter (fun e => !(e.1 == id)),
    clock := c.clock + 1 }

inductive CacheOp where
  | put (id : String) (a : SpecAttrs)
deriving DecidableEq

def CacheOp.nodeId : CacheOp → String
  | .put id _ => id

def runOps (c : SpecCache) : List CacheOp → SpecCache
  | [] => c
  | .put id a :: ops => runOps (c.put id a) ops

/-- Cache well-formedness: no stored sync stamp is ahead of the clock. -/
def SpecCache.wf (c : SpecCache) : Prop :=
  ∀ e ∈ c.entries, e.2.syncedAt ≤ c.clock

/-! ## Card layer composition (`card_generator.md`, Layer Composition
Order)

`scripts/generate_card.py` is absent from the sources; the composition
plan and its processing are modelled from the droid document's declared
Layer Composition Order (bottom to top: black border, character image,
decorative border, rarity pip, calling icon). -/

inductive CardLayerRole where
  | blackBorder | characterImage | decorativeBorder | rarityPip | callingIcon
deriving DecidableEq

inductive Rarity where
  | three | four | five
deriving DecidableEq

def Rarity.tag : Rarity → String
  | .three => "3star"
  | .four => "4star"
  | .five => "5star"

/-- One step of a composition plan. -/
structure CardLayer where
  role : CardLayerRole
  file : String
  mask : Option String
  cropTopBiasPct : Option Nat
  centeredH : Bool
  offsetFromTop : Option Int
deriving DecidableEq

/-- Modelled from the spec: the fixed composition plan of a sorcery
card, bottom to top, exactly as declared by Layer Composition Order —
the character image is masked to the base shape and cropped with a 30%
top bias, the calling icon sits 22px from the top. -/
def cardPlan (character : String) (r : Rarity) (calling : String) :
    List CardLayer :=
  [ { role := .blackBorder,
      file := "SorceryCard_Front_Border_Black_" ++ r.tag ++ ".png",
      mask := none, cropTopBiasPct := none, centeredH := true,
      offsetFromTop := none },
    { role := .characterImage,
      file := character,
      mask := some "SorceryCard_BaseShape__1_.png",
      cropTopBiasPct := some 30, centeredH := true, offsetFromTop := none },
    { role := .decorativeBorder,
      file := "SorceryCard_Front_Border_" ++ r.tag ++ ".png",
      mask := none, cropTopBiasPct := none, centeredH := true,
      offsetFromTop := none },
    { role := .rarityPip,
      file := "SorceryCard_Front_Pip_" ++ r.tag ++ ".png",
      mask := none, cropTopBiasPct := none, centeredH := true,
      offsetFromTop := none },
    { role := .callingIcon,
      file := "icon_calling_" ++ calling ++ ".png",
      mask := none, cropTopBiasPct := none, centeredH := true,
      offsetFromTop := some 22 } ]

/-- Pasting one layer onto the canvas records its role on top of what
was already pasted. -/
def pasteLayer (canvas : List CardLayerRole) (l : CardLayer) :
    List CardLayerRole :=
  canvas ++ [l.role]

/-- Modelled from the spec: the compositor processes the plan strictly
bottom-to-top, pasting each layer in turn onto the canvas. -/
def composeCard (character : String) (r : Rarity) (calling : String) :
    List CardLayerRole :=
  (cardPlan character r calling).foldl pasteLayer []

/-! ## Gacha generation (`gacha-droid.md`)

`generate_gacha.py` is absent from the sources; the pull-screen layout,
the raster rendering and the companion HTML document are modelled from
the spec: both renderings are derived from the same computed placements,
and every generation produces the PNG, the HTML and the assets folder. -/

structure GachaPull where
  primals : Nat
  sorceries : Nat
deriving DecidableEq

structure SlotPlacement where
  slot : Nat
  x : Int
  y : Int
  rotMilli : Int
  asset : String
deriving DecidableEq

/-- Modelled from the spec: the pull-screen slot layout (5 slots per
row), primal slots first, rotations and offsets taken from the cached
design spec. -/
def gachaLayout (spec : ExternalSpec) (pull : GachaPull) :
    List SlotPlacement :=
  (List.range (pull.primals + pull.sorceries)).map (fun i =>
    { slot := i
      x := 120 + 190 * (Int.ofNat (i % 5)) + spec.attrs.offsetX
      y := 240 + 280 * (Int.ofNat (i / 5)) + spec.attrs.offsetY
      rotMilli := if i < pull.primals then spec.attrs.primalRotMilli
                  else spec.attrs.sorceryRotMilli
      asset := if i < pull.primals then "PrimalCard_Back_5star-merge.png"
               else "SorceryCard_Back_3star-merge.png" })

structure RasterLayer where
  asset : String
  x : Int
  y : Int
  rotMilli : Int
deriving DecidableEq

structure DocLayer where
  asset : String
  left : Int
  top : Int
  rotMilli : Int
deriving DecidableEq

/-- The raster pass: paste each placement at its computed position. -/
def renderRaster (ps : List SlotPlacement) : List RasterLayer :=
  ps.map (fun p =>
    { asset := p.asset, x := p.x, y := p.y, rotMilli := p.rotMilli })

/-- The companion-document pass: declare each placement's position as
CSS offsets. -/
def renderDoc (ps : List SlotPlacement) : List DocLayer :=
  ps.map (fun p =>
    { asset := p.asset, left := p.x, top := p.y, rotMilli := p.rotMilli })

structure GachaOutputs where
  png : String
  html : String
  assetsDir : String
  raster : List RasterLayer
  doc : List DocLayer
deriving DecidableEq

/-- Modelled from the spec: one gacha generation — the layout is
computed once, the raster and the companion document are both derived
from those same placements, and the PNG, HTML and assets-folder outputs
are always all three produced. -/
def generateGacha (spec : ExternalSpec) (pull : GachaPull) (name : String) :
    GachaOutputs :=
  { png := "output/" ++ name ++ ".png"
    html := "output/" ++ name ++ ".html"
    assetsDir := "output/" ++ name ++ "_assets"
    raster := renderRaster (gachaLayout spec pull)
    doc := renderDoc (gachaLayout spec pull) }

/-! ## Batch orchestration (`card_generator.md`, Batch Generation) -/

structure CardRequest where
  character : String
  rarity : Rarity
  calling : String
deriving DecidableEq

inductive GenError where
  | notFound (character : String) (suggestions : List String)
deriving DecidableEq

structure CardResult where
  output : String
  layers : List CardLayerRole
deriving DecidableEq

/-- Modelled from the spec: one card generation — resolve the character
against the primals registry, then composite; a miss is a NotFound error
carrying the fuzzy suggestions. -/
def generateCard (registry : List String) (req : CardRequest) :
    Except GenError CardResult :=
  match resolveAsset registry req.character with
  | .found e =>
    .ok { output := "output/" ++ normalizeKey req.character ++ "_front_merge.png"
          layers := composeCard e req.rarity req.calling }
  | .notFound k sugg => .error (.notFound k sugg)

/-- Modelled from the spec: the batch orchestrator runs each request
independently and returns one result-or-error per input, in input
order. -/
def runBatch (registry : List String) (reqs : List CardRequest) :
    List (Except GenError CardResult) :=
  reqs.map (generateCard registry)

def isOkResult : Except GenError CardResult → Bool
  | .ok _ => true
  | .error _ => false

/-! ## Chat UI (`frontend/src/components/Chat.jsx`)

The chat component keeps the messages, the input field, a loading flag
and the generated-assets gallery in React state.  `sendMessage` guards
on a blank (after trimming) input or an in-flight request, then appends
the user message, clears the input, sets the loading flag and issues the
HTTP request; when the fetch settles it appends the assistant message,
extends the gallery when the response carries a download URL, and clears
the loading flag.  The embedding splits the async function at its await
point: `sendMessage` is the synchronous prefix and `completeRequest` the
continuation run on the response. -/

structure ChatMsg where
  role : String
  content : String
  downloadUrl : Option String
  isError : Bool
deriving DecidableEq

structure AssetEntry where
  url : String
  assetType : String
  prompt : String
deriving DecidableEq

/-- The component state; `pending` holds the prompts of the in-flight
requests (the `userInput` captured by the fetch continuation). -/
structure ChatState where
  messages : List ChatMsg
  input : String
  isLoading : Bool
  generatedAssets : List AssetEntry
  pending : List String
deriving DecidableEq

def chatInit : ChatState :=
  { messages := [], input := "", isLoading := false,
    generatedAssets := [], pending := [] }

/-- JS `String.prototype.trim`. -/
def trimStr (s : String) : String :=
  String.mk (((s.data.dropWhile (fun c => c.isWhitespace)).reverse.dropWhile
    (fun c => c.isWhitespace)).reverse)

/-- The synchronous prefix of `sendMessage`: `if (!input.trim() ||
isLoading) return;`, then append the user message (content is the
untrimmed input), clear the input, set the loading flag and issue the
request. -/
def sendMessage (st : ChatState) : ChatState :=
  if trimStr st.input = "" ∨ st.isLoading = true then st
  else
    { messages := st.messages ++
        [{ role := "user", content := st.input, downloadUrl := none,
           isError := false }]
      input := ""
      isLoading := true
      generatedAssets := st.generatedAssets
      pending := st.pending ++ [st.input] }

/-- How the fetch settles: a parsed ok response, a non-ok HTTP response
(its JSON `detail` field when present), or a network/parse error. -/
inductive ServerOutcome where
  | ok (message : String) (downloadUrl : Option String) (assetType : String)
  | httpError (status : Nat) (detail : Option String)
  | netError (message : String)
deriving DecidableEq

/-- JS truthiness of an optional string (absent, null and "" are
falsy). -/
def truthyStr : Option String → Bool
  | none => false
  | some s => !(s == "")

/-- The thrown error's message: `data.detail || Server error: status`
for a non-ok response, the network error's own message otherwise. -/
def errorText : ServerOutcome → String
  | .httpError status detail =>
    if truthyStr detail then detail.getD ""
    else "Server error: " ++ toString status
  | .netError m => m
  | .ok .. => ""

/-- The assistant message appended when the fetch settles: the response
message on success, the catch block's `Error: ... Please try again.`
(flagged `isError`) on failure. -/
def assistantMsg : ServerOutcome → ChatMsg
  | .ok message url _ =>
    { role := "assistant", content := message, downloadUrl := url,
      isError := false }
  | o =>
    { role := "assistant",
      content := "Error: " ++ errorText o ++ ". Please try again.",
      downloadUrl := none, isError := true }

/-- The gallery after the fetch settles: extended only on a successful
response whose `download_url` is truthy. -/
def galleryAfter (assets : List AssetEntry) (prompt : String) :
    ServerOutcome → List AssetEntry
  | .ok _ url assetType =>
    if truthyStr url then
      assets ++ [{ url := url.getD "", assetType := assetType,
                   prompt := prompt }]
    else assets
  | _ => assets

/-- The continuation run when the fetch settles: appends the assistant
message, updates the gallery, and clears the loading flag; a no-op when
no request is in flight. -/
def completeRequest (st : ChatState) (o : ServerOutcome) : ChatState :=
  match st.pending with
  | [] => st
  | prompt :: rest =>
    { messages := st.messages ++ [assistantMsg o]
      input := st.input
      isLoading := false
      generatedAssets := galleryAfter st.generatedAssets prompt o
      pending := rest }

/-- Did the outcome succeed carrying a truthy download URL? -/
def isOkWithUrl : ServerOutcome → Bool
  | .ok _ url _ => truthyStr url
  | _ => false

inductive ChatEvent where
  | setInput (s : String)
  | send
  | complete (o : ServerOutcome)

def chatStep (st : ChatState) : ChatEvent → ChatState
  | .setInput s => { st with input := s }
  | .send => sendMessage st
  | .complete o => completeRequest st o

/-- The chat states reachable from the initial render. -/
inductive ChatReachable : ChatState → Prop where
  | init : ChatReachable chatInit
  | step (st : ChatState) (e : ChatEvent) :
      ChatReachable st → ChatReachable (chatStep st e)

/-- The state invariant: at most one request in flight, none while not
loading, and no blank user message. -/
def ChatInv (st : ChatState) : Prop :=
  st.pending.length ≤ 1
  ∧ (st.isLoading = false → st.pending = [])
  ∧ ∀ m ∈ st.messages, m.role = "user" → trimStr m.content ≠ ""

end IconBtn

namespace IconBtn

/-- **C1.** The boon droid resolves "fire resistance" to the fire boon
with the `down` modifier — resistance is treated as an implicit negation
per the Step 2/Step 3 rules — and the modifier is not left unresolved. -/
theorem boonDroid_fire_resistance_resolves_fire_down :
    boonDroid "fire resistance" = .resolved .fire .down := by decide

/-- **C2 counterexample.** For the request "make a fire boon" the modifier
direction cannot be determined from the text, and the boon droid returns a
clarification request (asking for more input) rather than any fallback
variant — contradicting the claim that every such request resolves to a
declared fallback. -/
theorem boon_ambiguous_modifier_asks_clarification :
    matchModifier "make a fire boon" = none
    ∧ boonDroid "make a fire boon" = .clarify false true := by decide

/-- **C2 (amended).** When the CTA button type cannot be determined, the
CTA droid falls back to the declared default (primary) rather than
failing; but when a boon request's modifier direction cannot be
determined, the boon droid applies no fallback — it returns a
clarification request for the missing direction, per its Error Handling
section. -/
theorem ambiguous_type_fallback_vs_boon_clarify :
    (∀ s : String, (∀ k ∈ secondaryKeywords, (tokens s).contains k = false) →
      determineButtonType s = .primary)
    ∧ (∀ s : String, matchModifier s = none →
      boonDroid s = .clarify (matchBoon s).isNone true) := by
  constructor
  · intro s h
    have hs : secondaryKeywords.any (fun k => (tokens s).contains k) = false := by
      rw [List.any_eq_false]
      intro k hk hmem
      have h2 := h k hk
      simp at h2 hmem
      exact h2 hmem
    simp only [determineButtonType, hs, Bool.false_eq_true, if_false]
    split <;> rfl
  · intro s hm
    cases hb : matchBoon s <;> simp [boonDroid, hm, hb]

/-- Looking a key up in an association list filtered on a different key
is the same as looking it up in the original list. -/
theorem lookup_filter_ne {β : Type} {id id' : String} (h : (id == id') = false)
    (l : List (String × β)) :
    (l.filter (fun e => !(e.1 == id'))).lookup id = l.lookup id := by
  induction l with
  | nil => rfl
  | cons e l ih =>
    obtain ⟨k, v⟩ := e
    cases hk : (k == id') with
    | true =>
      have hik : (id == k) = false := by
        have hkk : k = id' := eq_of_beq hk
        rw [hkk]
        exact h
      simp [List.filter_cons, hk, List.lookup_cons, hik, ih]
    | false =>
      cases hik : (id == k) <;>
        simp [List.filter_cons, hk, List.lookup_cons, hik, ih]

/-- A successful association-list lookup yields an element of the
list. -/
theorem mem_of_lookup_eq_some {β : Type} {l : List (String × β)} {id : String}
    {v : β} (h : l.lookup id = some v) : (id, v) ∈ l := by
  induction l with
  | nil => cases h
  | cons e l ih =>
    obtain ⟨k, b⟩ := e
    rw [List.lookup_cons] at h
    cases hik : (id == k) with
    | true =>
      rw [hik] at h
      injection h with hv
      subst hv
      have hik2 : id = k := eq_of_beq hik
      subst hik2
      exact List.mem_cons_self _ _
    | false =>
      rw [hik] at h
      exact List.mem_cons_of_mem _ (ih h)

/-- `put` preserves cache well-formedness. -/
theorem wf_put {c : SpecCache} (h : c.wf) (id : String) (a : SpecAttrs) :
    (c.put id a).wf := by
  intro e he
  simp only [SpecCache.put, List.mem_cons] at he
  rcases he with rfl | hmem
  · simp [SpecCache.put]
  · have h1 := h e (List.mem_of_mem_filter hmem)
    simp only [SpecCache.put]
    omega

/-- A `get` right after a `put` on the same node sees the new spec,
stamped with the new clock. -/
theorem get_put_same (c : SpecCache) (id : String) (a : SpecAttrs) :
    (c.put id a).get id
      = { attrs := a, syncedAt := c.clock + 1, synced := true } := by
  simp [SpecCache.put, SpecCache.get, List.lookup_cons]

/-- A `put` on a different node leaves a node's `get` unchanged. -/
theorem get_put_ne {id id' : String} (h : (id == id') = false)
    (c : SpecCache) (a : SpecAttrs) :
    (c.put id' a).get id = c.get id := by
  simp only [SpecCache.put, SpecCache.get, List.lookup_cons, h]
  rw [lookup_filter_ne h]

/-- In a well-formed cache no `get` sees a stamp ahead of the clock. -/
theorem get_syncedAt_le {c : SpecCache} (h : c.wf) (id : String) :
    (c.get id).syncedAt ≤ c.clock := by
  unfold SpecCache.get
  cases hl : c.entries.lookup id with
  | none => simp [defaultSpec]
  | some s => exact h (id, s) (mem_of_lookup_eq_some hl)

/-- A node never touched by an operation sequence stays absent. -/
theorem lookup_none_runOps {id : String} (ops : List CacheOp)
    (h : ∀ op ∈ ops, op.nodeId ≠ id) {c : SpecCache}
    (hc : c.entries.lookup id = none) :
    (runOps c ops).entries.lookup id = none := by
  induction ops generalizing c with
  | nil => exact hc
  | cons op ops ih =>
    cases op with
    | put id' a =>
      have hne : id' ≠ id := h _ (List.mem_cons_self _ _)
      have hbeq : (id == id') = false := by
        rw [beq_eq_false_iff_ne]
        exact fun hh => hne hh.symm
      refine ih (fun op hop => h op (List.mem_cons_of_mem _ hop)) ?_
      simp only [SpecCache.put, List.lookup_cons, hbeq]
      rw [lookup_filter_ne hbeq]
      exact hc

/-- **C4.** Spec-cache contract: a `get` before any `put` on the node
returns the declared default spec marked unsynced; after `put(id, A)`
then `put(id, B)`, `get(id)` returns B's attributes with a strictly newer
sync stamp than A's; and across any operation sequence the sync stamp a
node's `get` reports never regresses. -/
theorem spec_cache_contract :
    (∀ (id : String) (ops : List CacheOp),
        (∀ op ∈ ops, CacheOp.nodeId op ≠ id) →
        (runOps SpecCache.empty ops).get id = defaultSpec
        ∧ defaultSpec.synced = false)
    ∧ (∀ (c : SpecCache) (id : String) (A B : SpecAttrs),
        ((c.put id A).put id B).get id
            = { attrs := B, syncedAt := c.clock + 2, synced := true }
        ∧ ((c.put id A).get id).syncedAt
            < (((c.put id A).put id B).get id).syncedAt)
    ∧ (∀ (c : SpecCache) (id : String) (ops : List CacheOp), c.wf →
        (c.get id).syncedAt ≤ ((runOps c ops).get id).syncedAt) := by
  refine ⟨?_, ?_, ?_⟩
  · intro id ops h
    refine ⟨?_, rfl⟩
    unfold SpecCache.get
    rw [lookup_none_runOps (c := SpecCache.empty) ops h rfl]
  · intro c id A B
    have h1 := get_put_same (c.put id A) id B
    have h2 := get_put_same c id A
    constructor
    · rw [h1]
      simp [SpecCache.put]
    · rw [h1, h2]
      simp [SpecCache.put]
  · intro c id ops
    induction ops generalizing c with
    | nil => intro _; exact le_refl _
    | cons op ops ih =>
      intro hwf
      cases op with
      | put id' a =>
        have hwf2 := wf_put hwf id' a
        have step : (c.get id).syncedAt ≤ ((c.put id' a).get id).syncedAt := by
          cases hik : (id == id') with
          | true =>
            have hik2 : id = id' := eq_of_beq hik
            subst hik2
            rw [get_put_same]
            have h3 := get_syncedAt_le hwf id
            show (c.get id).syncedAt ≤ c.clock + 1
            omega
          | false =>
            rw [get_put_ne hik]
        simp only [runOps]
        exact le_trans step (ih _ hwf2)

/-- Witness for C4 on the gacha node id "9064:2061": a sequence touching
only another node leaves its `get` at the unsynced default; two
successive puts yield the second bundle with sync stamp 2 > 1; and a put
sequence never lowers the reported stamp. -/
theorem spec_cache_contract_witness :
    ((runOps SpecCache.empty [CacheOp.put "1:2" ⟨1, 2, 3, 4⟩]).get "9064:2061"
        = defaultSpec)
    ∧ ((SpecCache.empty.put "9064:2061" ⟨356228, 355582, 0, 0⟩).put "9064:2061"
          ⟨350000, 355582, 0, 0⟩).get "9064:2061"
        = { attrs := ⟨350000, 355582, 0, 0⟩, syncedAt := 2, synced := true }
    ∧ (SpecCache.empty.get "9064:2061").syncedAt
        ≤ ((runOps SpecCache.empty [CacheOp.put "9064:2061" ⟨1, 2, 3, 4⟩]).get
            "9064:2061").syncedAt := by
  refine ⟨?_, ?_, ?_⟩
  · exact (spec_cache_contract.1 "9064:2061" [CacheOp.put "1:2" ⟨1, 2, 3, 4⟩]
      (by decide)).1
  · have h := (spec_cache_contract.2.1 SpecCache.empty "9064:2061"
      ⟨356228, 355582, 0, 0⟩ ⟨350000, 355582, 0, 0⟩).1
    simpa using h
  · exact spec_cache_contract.2.2 SpecCache.empty "9064:2061"
      [CacheOp.put "9064:2061" ⟨1, 2, 3, 4⟩] (by intro e he; cases he)

/-- **C3.** Registry lookup: the key "frost queen" resolves, via
normalized matching, to the entry "frostqueen" whenever that entry is
present (and no distinct entry shares its normal form); and every
suggestion carried by a NotFound result scores strictly above the fixed
similarity threshold. -/
theorem registry_fuzzy_lookup (registry : List String)
    (hmem : "frostqueen" ∈ registry)
    (huniq : ∀ e ∈ registry, normalizeKey e = "frostqueen" → e = "frostqueen") :
    resolveAsset registry "frost queen" = .found "frostqueen"
    ∧ ∀ key sugg, resolveAsset registry key = .notFound key sugg →
        ∀ c ∈ sugg,
          similarityThreshold < similarity (normalizeKey key) (normalizeKey c) := by
  constructor
  · unfold resolveAsset
    cases h : registry.find?
        (fun e => normalizeKey e == normalizeKey "frost queen") with
    | none =>
      exfalso
      have h2 := List.find?_eq_none.mp h "frostqueen" hmem
      apply h2
      decide
    | some e =>
      have he := List.find?_some h
      have heq : e = "frostqueen" := huniq e (List.mem_of_find?_eq_some h) (by
        have hnk : normalizeKey "frost queen" = "frostqueen" := by decide
        rw [hnk] at he
        exact eq_of_beq he)
      rw [heq]
  · intro key sugg hres c hc
    unfold resolveAsset at hres
    cases h : registry.find? (fun e => normalizeKey e == normalizeKey key) with
    | some e =>
      rw [h] at hres
      cases hres
    | none =>
      rw [h] at hres
      injection hres with hk hs
      subst hs
      exact of_decide_eq_true (List.mem_filter.mp hc).2

/-- Witness for C3: in the registry {frostqueen, shadowknight}, "frost
queen" resolves to "frostqueen", and the misspelt key "frost quen" (a
NotFound) carries "frostqueen" as a suggestion because its similarity
beats the threshold. -/
theorem registry_fuzzy_lookup_witness :
    resolveAsset ["frostqueen", "shadowknight"] "frost queen"
      = .found "frostqueen"
    ∧ similarityThreshold <
        similarity (normalizeKey "frost quen") (normalizeKey "frostqueen") := by
  constructor
  · exact (registry_fuzzy_lookup ["frostqueen", "shadowknight"]
      (by decide) (by decide)).1
  · exact (registry_fuzzy_lookup ["frostqueen", "shadowknight"]
      (by decide) (by decide)).2 "frost quen" ["frostqueen"]
      (by decide) "frostqueen" (by decide)

/-- **C8.** Button-text source precedence, highest first: explicitly
quoted text, then a "labeled"/"says" clause, then a colon-delimited
suffix, then a bare keyword hit — whichever higher-precedence source is
present decides the extracted (uppercased) text regardless of the lower
ones. -/
theorem button_text_precedence (s t : String) :
    (quotedText s = some t → extractButtonText s = some (uppercaseStr t))
    ∧ (quotedText s = none → afterKeyword ["says", "saying"] s = some t →
        extractButtonText s = some (uppercaseStr t))
    ∧ (quotedText s = none → afterKeyword ["says", "saying"] s = none →
        afterKeyword ["labeled", "labelled"] s = some t →
        extractButtonText s = some (uppercaseStr t))
    ∧ (quotedText s = none → afterKeyword ["says", "saying"] s = none →
        afterKeyword ["labeled", "labelled"] s = none →
        afterKeyword ["text"] s = none →
        afterColon s = some t →
        extractButtonText s = some (uppercaseStr t))
    ∧ (quotedText s = none → afterKeyword ["says", "saying"] s = none →
        afterKeyword ["labeled", "labelled"] s = none →
        afterKeyword ["text"] s = none →
        afterColon s = none → bareKeywordHit s = some t →
        extractButtonText s = some (uppercaseStr t)) := by
  refine ⟨?_, ?_, ?_, ?_, ?_⟩ <;> · intros; simp [extractButtonText, *]

/-- Witness for C8 at concrete requests, one per precedence tier: quoted
text beats a "labeled" clause; a "says" clause and a "labeled" clause
each beat a colon suffix; a colon suffix beats a bare "confirm" keyword;
a bare keyword is used when nothing else matches. -/
theorem button_text_precedence_witness :
    extractButtonText "make a \"stop\" button labeled GO" = some "STOP"
    ∧ extractButtonText "button says begin: now" = some "BEGIN NOW"
    ∧ extractButtonText "button labeled begin: now" = some "BEGIN NOW"
    ∧ extractButtonText "primary cta: begin now please confirm"
        = some "BEGIN NOW PLEASE CONFIRM"
    ∧ extractButtonText "make a confirm button" = some "CONFIRM" := by
  refine ⟨?_, ?_, ?_, ?_, ?_⟩
  · have h := (button_text_precedence "make a \"stop\" button labeled GO"
      "stop").1 (by decide)
    rw [h]; decide
  · have h := (button_text_precedence "button says begin: now"
      "begin now").2.1 (by decide) (by decide)
    rw [h]; decide
  · have h := (button_text_precedence "button labeled begin: now"
      "begin now").2.2.1 (by decide) (by decide) (by decide)
    rw [h]; decide
  · have h := (button_text_precedence "primary cta: begin now please confirm"
      "begin now please confirm").2.2.2.1
      (by decide) (by decide) (by decide) (by decide) (by decide)
    rw [h]; decide
  · have h := (button_text_precedence "make a confirm button"
      "confirm").2.2.2.2
      (by decide) (by decide) (by decide) (by decide) (by decide) (by decide)
    rw [h]; decide

/-- **C6.** For every card request the compositor applies the layers
strictly bottom-to-top in the fixed order black border, character image,
decorative border, rarity pip, calling icon; the layer order is a
constant of the asset type, identical across any two requests; and the
character layer is masked to the base shape and cropped with the
declared 30% top bias. -/
theorem card_layers_fixed_order (character : String) (r : Rarity)
    (calling : String) (character2 : String) (r2 : Rarity)
    (calling2 : String) :
    composeCard character r calling
      = [.blackBorder, .characterImage, .decorativeBorder, .rarityPip,
         .callingIcon]
    ∧ (cardPlan character r calling).map CardLayer.role
        = (cardPlan character2 r2 calling2).map CardLayer.role
    ∧ (cardPlan character r calling).map CardLayer.mask
        = [none, some "SorceryCard_BaseShape__1_.png", none, none, none]
    ∧ (cardPlan character r calling).map CardLayer.cropTopBiasPct
        = [none, some 30, none, none, none] :=
  ⟨rfl, rfl, rfl, rfl⟩

/-- **C5.** Every gacha generation emits all three outputs (PNG, HTML
and assets folder), and the companion document declares, layer for
layer, exactly the position/rotation/asset values the raster used — the
two outputs cannot diverge. -/
theorem gacha_companion_document_agrees (spec : ExternalSpec)
    (pull : GachaPull) (name : String) :
    (generateGacha spec pull name).png = "output/" ++ name ++ ".png"
    ∧ (generateGacha spec pull name).html = "output/" ++ name ++ ".html"
    ∧ (generateGacha spec pull name).assetsDir = "output/" ++ name ++ "_assets"
    ∧ (generateGacha spec pull name).doc.length
        = (generateGacha spec pull name).raster.length
    ∧ (generateGacha spec pull name).doc.map
        (fun d => (d.left, d.top, d.rotMilli, d.asset))
        = (generateGacha spec pull name).raster.map
            (fun rl => (rl.x, rl.y, rl.rotMilli, rl.asset)) := by
  refine ⟨rfl, rfl, rfl, ?_, ?_⟩
  · simp [generateGacha, renderRaster, renderDoc]
  · simp [generateGacha, renderRaster, renderDoc, List.map_map]

set_option maxRecDepth 8192 in
/-- **C7.** The batch orchestrator returns exactly one result-or-error
per input, in input order; each output is a function of its own request
alone, so no item's failure affects a sibling; and the declared 3-item
example — the second item referencing a nonexistent character — yields
[success, NotFoundError, success]. -/
theorem batch_per_item_results (registry : List String)
    (reqs : List CardRequest) :
    (runBatch registry reqs).length = reqs.length
    ∧ (∀ (i : Nat) (h1 : i < (runBatch registry reqs).length)
        (h2 : i < reqs.length),
        (runBatch registry reqs).get ⟨i, h1⟩
          = generateCard registry (reqs.get ⟨i, h2⟩))
    ∧ (runBatch ["frostqueen", "shadowknight"]
        [⟨"frost queen", .three, "Cunning"⟩,
         ⟨"dragon emperor xyz", .three, "Might"⟩,
         ⟨"shadow knight", .three, "Might"⟩]).map isOkResult
        = [true, false, true]
    ∧ (runBatch ["frostqueen", "shadowknight"]
        [⟨"frost queen", .three, "Cunning"⟩,
         ⟨"dragon emperor xyz", .three, "Might"⟩,
         ⟨"shadow knight", .three, "Might"⟩]).get? 1
        = some (.error (.notFound "dragon emperor xyz" [])) := by
  refine ⟨by simp [runBatch], ?_, by decide, by rfl⟩
  intro i h1 h2
  simp [runBatch]

/-- Every message the response continuation appends has the assistant
role. -/
theorem assistantMsg_role (o : ServerOutcome) :
    (assistantMsg o).role = "assistant" := by
  cases o <;> rfl

/-- Every chat event preserves the state invariant. -/
theorem chatInv_step (st : ChatState) (e : ChatEvent) (h : ChatInv st) :
    ChatInv (chatStep st e) := by
  obtain ⟨h1, h2, h3⟩ := h
  cases e with
  | setInput s => exact ⟨h1, h2, h3⟩
  | send =>
    show ChatInv (sendMessage st)
    unfold sendMessage
    split
    · exact ⟨h1, h2, h3⟩
    · rename_i hc
      rw [not_or] at hc
      obtain ⟨hne, hload⟩ := hc
      have hload2 : st.isLoading = false := by
        revert hload
        cases st.isLoading <;> simp
      have hpend : st.pending = [] := h2 hload2
      refine ⟨by simp [hpend], ?_, ?_⟩
      · intro habs
        simp at habs
      · intro m hm hrole
        rw [List.mem_append] at hm
        rcases hm with hm | hm
        · exact h3 m hm hrole
        · simp at hm
          subst hm
          exact hne
  | complete o =>
    show ChatInv (completeRequest st o)
    unfold completeRequest
    cases hps : st.pending with
    | nil => exact ⟨h1, h2, h3⟩
    | cons prompt rest =>
      have h1b : rest.length = 0 := by
        rw [hps] at h1
        simp only [List.length_cons] at h1
        omega
      have hrest := List.length_eq_zero.mp h1b
      subst hrest
      refine ⟨by simp, fun _ => rfl, ?_⟩
      intro m hm hrole
      rw [List.mem_append] at hm
      rcases hm with hm | hm
      · exact h3 m hm hrole
      · simp at hm
        subst hm
        rw [assistantMsg_role] at hrole
        exact absurd hrole (by decide)

/-- Every reachable chat state satisfies the invariant. -/
theorem chatReachable_inv {st : ChatState} (h : ChatReachable st) :
    ChatInv st := by
  induction h with
  | init =>
    refine ⟨by simp [chatInit], fun _ => rfl, ?_⟩
    intro m hm
    simp [chatInit] at hm
  | step st e hr ih => exact chatInv_step st e ih

/-- **C9.** `sendMessage` is a no-op when the trimmed input is empty or
a request is already in flight — the messages, input field, loading flag
and gallery are unchanged and no request is issued; consequently every
reachable chat state holds no blank user message and has at most one
request in flight. -/
theorem sendMessage_noop_and_invariants (st : ChatState)
    (h : trimStr st.input = "" ∨ st.isLoading = true) :
    sendMessage st = st
    ∧ ∀ st2 : ChatState, ChatReachable st2 →
        st2.pending.length ≤ 1
        ∧ ∀ m ∈ st2.messages, m.role = "user" → trimStr m.content ≠ "" := by
  constructor
  · unfold sendMessage
    rw [if_pos h]
  · intro st2 h2
    obtain ⟨i1, _, i3⟩ := chatReachable_inv h2
    exact ⟨i1, i3⟩

/-- Witness for C9: on a whitespace-only input `sendMessage` leaves the
state untouched, and the initial state has no request in flight. -/
theorem sendMessage_noop_and_invariants_witness :
    sendMessage { messages := [], input := "   ", isLoading := false,
                  generatedAssets := [], pending := [] }
      = { messages := [], input := "   ", isLoading := false,
          generatedAssets := [], pending := [] }
    ∧ chatInit.pending.length ≤ 1 := by
  constructor
  · exact (sendMessage_noop_and_invariants _ (Or.inl (by decide))).1
  · exact ((sendMessage_noop_and_invariants chatInit (Or.inl rfl)).2 chatInit
      ChatReachable.init).1

/-- **C10.** When a response settles with a request in flight: prior
messages are never removed or altered and exactly one assistant message
is appended; the gallery gains an entry exactly when the response is
successful and carries a (truthy) download URL, in which case the new
entry records that URL; and every failed request instead appends an
assistant message flagged `isError`, leaving the gallery unchanged. -/
theorem response_gallery_contract (st : ChatState) (o : ServerOutcome)
    (hp : st.pending ≠ []) :
    (completeRequest st o).messages.take st.messages.length = st.messages
    ∧ (completeRequest st o).messages.length = st.messages.length + 1
    ∧ ((completeRequest st o).generatedAssets ≠ st.generatedAssets
        ↔ isOkWithUrl o = true)
    ∧ (∀ message url assetType, o = .ok message url assetType →
        truthyStr url = true →
        (completeRequest st o).generatedAssets
          = st.generatedAssets ++
              [{ url := url.getD "", assetType := assetType,
                 prompt := st.pending.headD "" }])
    ∧ (isOkWithUrl o = false →
        (completeRequest st o).generatedAssets = st.generatedAssets
        ∧ (completeRequest st o).messages = st.messages ++ [assistantMsg o])
    ∧ (∀ status detail, o = .httpError status detail →
        (assistantMsg o).isError = true)
    ∧ (∀ m2, o = .netError m2 → (assistantMsg o).isError = true) := by
  cases hps : st.pending with
  | nil => exact absurd hps hp
  | cons prompt rest =>
    simp only [completeRequest, hps]
    refine ⟨List.take_left _ _, by simp, ?_, ?_, ?_, ?_, ?_⟩
    · cases o with
      | ok message url assetType =>
        simp only [galleryAfter, isOkWithUrl]
        cases ht : truthyStr url with
        | true =>
          simp only [ht, if_true]
          exact iff_of_true
            (fun heq => by simpa using congrArg List.length heq) trivial
        | false => simp [ht]
      | httpError status detail => simp [galleryAfter, isOkWithUrl]
      | netError m2 => simp [galleryAfter, isOkWithUrl]
    · intro message url assetType ho ht
      subst ho
      simp [galleryAfter, ht, hps]
    · intro hko
      refine ⟨?_, trivial⟩
      cases o with
      | ok message url assetType =>
        simp only [isOkWithUrl] at hko
        simp [galleryAfter, hko]
      | httpError status detail => rfl
      | netError m2 => rfl
    · intro status detail ho
      subst ho
      rfl
    · intro m2 ho
      subst ho
      rfl

/-- Witness for C10 at a concrete state with one in-flight request: a
successful response carrying a download URL appends exactly its gallery
entry, and a network error marks the appended assistant message as an
error. -/
theorem response_gallery_contract_witness :
    (completeRequest
        { messages := [{ role := "user", content := "make a potion icon",
                         downloadUrl := none, isError := false }],
          input := "", isLoading := true, generatedAssets := [],
          pending := ["make a potion icon"] }
        (.ok "Done!" (some "/output/icon/potion.png") "icon")).generatedAssets
      = [{ url := "/output/icon/potion.png", assetType := "icon",
           prompt := "make a potion icon" }]
    ∧ (assistantMsg (.netError "fetch failed")).isError = true := by
  constructor
  · have h := (response_gallery_contract
      { messages := [{ role := "user", content := "make a potion icon",
                       downloadUrl := none, isError := false }],
        input := "", isLoading := true, generatedAssets := [],
        pending := ["make a potion icon"] }
      (.ok "Done!" (some "/output/icon/potion.png") "icon")
      (by decide)).2.2.2.1 "Done!" (some "/output/icon/potion.png") "icon"
      rfl (by decide)
    rw [h]
    decide
  · exact (response_gallery_contract
      { messages := [], input := "", isLoading := true,
        generatedAssets := [], pending := ["x"] }
      (.netError "fetch failed") (by decide)).2.2.2.2.2.2 "fetch failed" rfl

/-- Witness for C7: a singleton batch over the registry {frostqueen}
returns exactly its one per-item result, equal to running that item
alone. -/
theorem batch_per_item_results_witness :
    (runBatch ["frostqueen"] [⟨"frost queen", .three, "Cunning"⟩]).length = 1
    ∧ (runBatch ["frostqueen"]
        [⟨"frost queen", .three, "Cunning"⟩]).get ⟨0, by decide⟩
        = generateCard ["frostqueen"] ⟨"frost queen", .three, "Cunning"⟩ := by
  constructor
  · exact (batch_per_item_results ["frostqueen"]
      [⟨"frost queen", .three, "Cunning"⟩]).1
  · exact (batch_per_item_results ["frostqueen"]
      [⟨"frost queen", .three, "Cunning"⟩]).2.1 0 (by decide) (by decide)

/-- Witness for the amended C2 at concrete requests: "make me a nice
button" carries no type indicator and resolves to primary; "make a fire
boon" carries no direction indicator and yields a clarification. -/
theorem ambiguous_type_fallback_vs_boon_clarify_witness :
    determineButtonType "make me a nice button" = .primary
    ∧ boonDroid "make a fire boon" = .clarify false true := by
  constructor
  · exact ambiguous_type_fallback_vs_boon_clarify.1 "make me a nice button" (by decide)
  · have h := ambiguous_type_fallback_vs_boon_clarify.2 "make a fire boon" (by decide)
    rw [h]
    decide

end IconBtn
